import Mathlib

/-!
Verification of the token-identity / trade-pagination core of the
poly_market repository.  Python strings are modelled as `List Char`,
Python ints as `Nat`/`Int`, fallible code as `Except`/`Option`.
Each definition is a shallow embedding of the correspondingly named
function of the source.
-/

/-! ### Character and digit primitives -/

/-- Value of a decimal digit character, `none` for any other character
(the per-character step of Python `int(s)`). -/
def decCharVal (c : Char) : Option Nat :=
  if 48 ≤ c.toNat ∧ c.toNat ≤ 57 then some (c.toNat - 48) else none

/-- Value of a hexadecimal digit character, case-insensitive, `none`
otherwise (the per-character step of Python `int(s, 16)`). -/
def hexCharVal (c : Char) : Option Nat :=
  if 48 ≤ c.toNat ∧ c.toNat ≤ 57 then some (c.toNat - 48)
  else if 97 ≤ c.toNat ∧ c.toNat ≤ 102 then some (c.toNat - 87)
  else if 65 ≤ c.toNat ∧ c.toNat ≤ 70 then some (c.toNat - 55)
  else none

/-- The decimal digit character for a value below 10. -/
def decDigitChar (d : Nat) : Char := Char.ofNat (d + 48)

/-- The lowercase hexadecimal digit character for a value below 16
(Python `'x'` format code emits lowercase). -/
def hexDigitChar (d : Nat) : Char :=
  if d < 10 then Char.ofNat (d + 48) else Char.ofNat (d + 87)

/-- Fuel-driven digit loop: structural recursion on the fuel so that the
kernel can evaluate it.  `digitsBE` supplies enough fuel. -/
def digitsBEGo (b : Nat) : Nat → Nat → List Nat
  | 0, n => [n]
  | fuel + 1, n =>
    if n < b ∨ b ≤ 1 then [n]
    else digitsBEGo b fuel (n / b) ++ [n % b]

/-- Big-endian digit list of `n` in base `b`, minimal width (no leading
zeros except for `n = 0`, which is the single digit `0`).  The `b ≤ 1`
guard exists only to make the recursion well defined for degenerate
bases; the development uses `b = 10` and `b = 16`. -/
def digitsBE (b : Nat) (n : Nat) : List Nat := digitsBEGo b n n

theorem digitsBEGo_congr (b : Nat) :
    ∀ f1 : Nat, ∀ n : Nat, n ≤ f1 → ∀ f2 : Nat, n ≤ f2 →
      digitsBEGo b f1 n = digitsBEGo b f2 n := by
  intro f1
  induction f1 with
  | zero =>
    intro n hn f2 _
    have hn0 : n = 0 := Nat.le_zero.mp hn
    subst hn0
    cases f2 with
    | zero => rfl
    | succ f2 =>
      simp only [digitsBEGo]
      have : 0 < b ∨ b ≤ 1 := by omega
      simp [this]
  | succ f1 ih =>
    intro n hn f2 hf2
    cases f2 with
    | zero =>
      have hn0 : n = 0 := Nat.le_zero.mp hf2
      subst hn0
      simp only [digitsBEGo]
      have : 0 < b ∨ b ≤ 1 := by omega
      simp [this]
    | succ f2 =>
      simp only [digitsBEGo]
      by_cases hg : n < b ∨ b ≤ 1
      · simp [hg]
      · simp only [hg, if_false]
        have hb2 : 2 ≤ b := by omega
        have hnb : b ≤ n := by omega
        have hdiv : n / b < n := Nat.div_lt_self (by omega) (by omega)
        rw [ih (n / b) (by omega) f2 (by omega)]

/-- Master unfolding equation for `digitsBE`. -/
theorem digitsBE_eq (b n : Nat) :
    digitsBE b n = if n < b ∨ b ≤ 1 then [n]
                   else digitsBE b (n / b) ++ [n % b] := by
  unfold digitsBE
  cases n with
  | zero =>
    simp only [digitsBEGo]
    have : 0 < b ∨ b ≤ 1 := by omega
    simp [this]
  | succ m =>
    simp only [digitsBEGo]
    by_cases hg : m + 1 < b ∨ b ≤ 1
    · simp [hg]
    · simp only [hg, if_false]
      have hdiv : (m + 1) / b < m + 1 := Nat.div_lt_self (by omega) (by omega)
      rw [digitsBEGo_congr b m ((m+1)/b) (by omega) ((m+1)/b) (by omega)]

/-- Rebuild a number from a big-endian digit list. -/
def fromDigits (b : Nat) (l : List Nat) : Nat :=
  l.foldl (fun a d => a * b + d) 0

/-- Python `str(n)` for a non-negative integer: minimal decimal digits. -/
def natToDecChars (n : Nat) : List Char := (digitsBE 10 n).map decDigitChar

/-- Minimal lowercase hexadecimal rendering of `n` (the digit part of
Python `format(n, 'x')`). -/
def natToHexChars (n : Nat) : List Char := (digitsBE 16 n).map hexDigitChar

/-- Python `str.zfill(w)` for an unsigned numeral: pad with `'0'` on the
left up to width `w`; a longer string is returned unchanged. -/
def zfillTo (w : Nat) (cs : List Char) : List Char :=
  List.replicate (w - cs.length) '0' ++ cs

/-- Python `format(n, '064x')`: lowercase hex, zero-padded to 64 digits. -/
def format064x (n : Nat) : List Char := zfillTo 64 (natToHexChars n)

/-- Digit accumulator loop shared by the numeral parsers. -/
def parseDigitsGo (dv : Char → Option Nat) (b : Nat) (acc : Nat) :
    List Char → Option Nat
  | [] => some acc
  | c :: cs =>
    match dv c with
    | some d => parseDigitsGo dv b (acc * b + d) cs
    | none => none

/-- Parse a non-empty all-digit string; `none` on the empty string or on
any invalid character. -/
def parseDigits (dv : Char → Option Nat) (b : Nat) (cs : List Char) :
    Option Nat :=
  if cs.isEmpty then none else parseDigitsGo dv b 0 cs

/-- Python `int(s)` restricted to the token-identity domain: a string of
decimal digits.  Sign, underscore and whitespace forms of the full
Python grammar never arise for token ids and are outside the model. -/
def pyIntBase10 (cs : List Char) : Option Nat := parseDigits decCharVal 10 cs

/-- Python `int(s, 16)` restricted likewise: an optional `0x`/`0X`
prefix followed by hexadecimal digits. -/
def pyIntBase16 (cs : List Char) : Option Nat :=
  match cs with
  | '0' :: 'x' :: rest => parseDigits hexCharVal 16 rest
  | '0' :: 'X' :: rest => parseDigits hexCharVal 16 rest
  | _ => parseDigits hexCharVal 16 cs

/-- Strip every character of `set` from both ends (Python `str.strip(chars)`). -/
def pyStrip (set : List Char) (cs : List Char) : List Char :=
  ((cs.dropWhile (· ∈ set)).reverse.dropWhile (· ∈ set)).reverse

/-- Python `str.strip()`: remove whitespace from both ends. -/
def pyStripWs (cs : List Char) : List Char :=
  ((cs.dropWhile Char.isWhitespace).reverse.dropWhile Char.isWhitespace).reverse

/-- Python `s.startswith('0x')`. -/
def startsWith0x (cs : List Char) : Bool :=
  match cs with
  | c0 :: c1 :: _ => c0 = '0' ∧ c1 = 'x'
  | _ => false

/-! ### convert_token_id (src/utils/token_utils.py) -/

/-- Embedding of `convert_token_id` (src/utils/token_utils.py, lines
3-58).  Faithful to the source, including the silent return of the
(stripped) input when the numeral fails to parse. -/
def convert_token_id (token_id : List Char) (to_format : String) : List Char :=
  let token_id := pyStripWs token_id
  if to_format = "hex" then
    if startsWith0x token_id then
      let hex_value := token_id.map Char.toLower
      let hex_digits := hex_value.drop 2
      '0' :: 'x' :: zfillTo 64 hex_digits
    else
      match pyIntBase10 token_id with
      | some n => '0' :: 'x' :: format064x n
      | none => token_id
  else if to_format = "decimal" then
    if startsWith0x token_id then
      match pyIntBase16 token_id with
      | some n => natToDecChars n
      | none => token_id
    else token_id
  else token_id

example : convert_token_id "123".toList "hex" =
    '0' :: 'x' :: (List.replicate 62 '0' ++ ['7', 'b']) := by decide
example : convert_token_id "0x7b".toList "decimal" = "123".toList := by decide
example : convert_token_id "abc".toList "hex" = "abc".toList := by decide

/-! ### Digit round-trip lemmas -/

theorem digitsBE_ne_nil (b n : Nat) : digitsBE b n ≠ [] := by
  rw [digitsBE_eq]
  by_cases hg : n < b ∨ b ≤ 1 <;> simp [hg]

theorem digitsBE_lt (b : Nat) (hb : 2 ≤ b) :
    ∀ n : Nat, ∀ d ∈ digitsBE b n, d < b := by
  intro n
  induction n using Nat.strong_induction_on with
  | _ n ih =>
    rw [digitsBE_eq]
    by_cases hg : n < b ∨ b ≤ 1
    · have hnb : n < b := by omega
      simp [hg, hnb]
    · simp only [hg, if_false, List.mem_append, List.mem_singleton]
      intro d hd
      rcases hd with hd | hd
      · exact ih (n / b) (Nat.div_lt_self (by omega) (by omega)) d hd
      · subst hd
        exact Nat.mod_lt n (by omega)

theorem digitsBE_length_le (b : Nat) (hb : 2 ≤ b) :
    ∀ n w : Nat, n < b ^ w → 1 ≤ w → (digitsBE b n).length ≤ w := by
  intro n
  induction n using Nat.strong_induction_on with
  | _ n ih =>
    intro w hw h1
    rw [digitsBE_eq]
    by_cases hg : n < b ∨ b ≤ 1
    · simp [hg, h1]
    · simp only [hg, if_false, List.length_append, List.length_singleton]
      have hbn : b ≤ n := by omega
      have hw2 : 2 ≤ w := by
        by_contra hc
        have hw1 : w = 1 := by omega
        subst hw1
        simp [pow_one] at hw
        omega
      have hdivlt : n / b < n := Nat.div_lt_self (by omega) (by omega)
      have hpow : n / b < b ^ (w - 1) := by
        have hbpos : 0 < b := by omega
        rw [Nat.div_lt_iff_lt_mul hbpos]
        have : b ^ (w - 1) * b = b ^ w := by
          rw [← pow_succ]
          congr 1
          omega
        omega
      have := ih (n / b) hdivlt (w - 1) hpow (by omega)
      omega

theorem foldl_digitsBE (b : Nat) (hb : 2 ≤ b) :
    ∀ n acc : Nat,
      (digitsBE b n).foldl (fun a d => a * b + d) acc =
        acc * b ^ (digitsBE b n).length + n := by
  intro n
  induction n using Nat.strong_induction_on with
  | _ n ih =>
    intro acc
    rw [digitsBE_eq]
    by_cases hg : n < b ∨ b ≤ 1
    · simp [hg, List.foldl, pow_one]
    · simp only [hg, if_false, List.foldl_append, List.length_append,
        List.length_singleton, List.foldl]
      have hdivlt : n / b < n := Nat.div_lt_self (by omega) (by omega)
      rw [ih (n / b) hdivlt acc]
      have hmod : n / b * b + n % b = n := by
        have h := Nat.div_add_mod n b
        rw [Nat.mul_comm] at h
        exact h
      have hpow : b ^ ((digitsBE b (n / b)).length + 1) =
          b ^ (digitsBE b (n / b)).length * b := pow_succ b _
      calc (acc * b ^ (digitsBE b (n / b)).length + n / b) * b + n % b
          = acc * (b ^ (digitsBE b (n / b)).length * b) + (n / b * b + n % b) := by
            ring
        _ = acc * b ^ ((digitsBE b (n / b)).length + 1) + n := by
            rw [hpow, hmod]

theorem fromDigits_digitsBE (b : Nat) (hb : 2 ≤ b) (n : Nat) :
    fromDigits b (digitsBE b n) = n := by
  unfold fromDigits
  rw [foldl_digitsBE b hb n 0]
  simp

/-- Decoding inverts encoding for decimal digit characters. -/
theorem decCharVal_decDigitChar : ∀ d : Nat, d < 10 →
    decCharVal (decDigitChar d) = some d := by decide

/-- Decoding inverts encoding for lowercase hex digit characters. -/
theorem hexCharVal_hexDigitChar : ∀ d : Nat, d < 16 →
    hexCharVal (hexDigitChar d) = some d := by decide

theorem parseDigitsGo_map_append (dv : Char → Option Nat) (b : Nat)
    (enc : Nat → Char) (hde : ∀ d : Nat, d < b → dv (enc d) = some d) :
    ∀ (l : List Nat), (∀ d ∈ l, d < b) → ∀ (acc : Nat) (rest : List Char),
      parseDigitsGo dv b acc (l.map enc ++ rest) =
        parseDigitsGo dv b (l.foldl (fun a d => a * b + d) acc) rest := by
  intro l
  induction l with
  | nil => intro _ acc rest; simp [List.foldl]
  | cons d t iht =>
    intro hl acc rest
    have hd : d < b := hl d (List.mem_cons_self d t)
    simp only [List.map_cons, List.cons_append, parseDigitsGo, hde d hd,
      List.foldl]
    exact iht (fun x hx => hl x (List.mem_cons_of_mem d hx)) (acc * b + d) rest

theorem parseDigitsGo_replicate_zero (dv : Char → Option Nat) (b : Nat)
    (h0 : dv '0' = some 0) :
    ∀ (k : Nat) (cs : List Char),
      parseDigitsGo dv b 0 (List.replicate k '0' ++ cs) =
        parseDigitsGo dv b 0 cs := by
  intro k
  induction k with
  | zero => intro cs; simp
  | succ k ihk =>
    intro cs
    simp only [List.replicate_succ, List.cons_append, parseDigitsGo, h0]
    simpa using ihk cs

/-- Parsing inverts rendering for decimal numerals: `int(str(n)) = n`. -/
theorem pyIntBase10_natToDecChars (n : Nat) :
    pyIntBase10 (natToDecChars n) = some n := by
  unfold pyIntBase10 parseDigits natToDecChars
  have hne : (digitsBE 10 n).map decDigitChar ≠ [] := by
    simp [digitsBE_ne_nil]
  rw [if_neg (by simpa [List.isEmpty_iff] using hne)]
  have := parseDigitsGo_map_append decCharVal 10 decDigitChar
    decCharVal_decDigitChar (digitsBE 10 n) (digitsBE_lt 10 (by omega) n) 0 []
  simp only [List.append_nil] at this
  rw [this]
  simp only [parseDigitsGo]
  rw [show (digitsBE 10 n).foldl (fun a d => a * 10 + d) 0
        = fromDigits 10 (digitsBE 10 n) from rfl]
  rw [fromDigits_digitsBE 10 (by omega) n]

/-- Parsing inverts the zero-padded hex rendering, for any pad width. -/
theorem parseDigits_hex_zfill (w n : Nat) :
    parseDigits hexCharVal 16 (zfillTo w (natToHexChars n)) = some n := by
  unfold parseDigits zfillTo natToHexChars
  have hne : (digitsBE 16 n).map hexDigitChar ≠ [] := by
    simp [digitsBE_ne_nil]
  rw [if_neg]
  · rw [parseDigitsGo_replicate_zero hexCharVal 16 (by decide)]
    have := parseDigitsGo_map_append hexCharVal 16 hexDigitChar
      hexCharVal_hexDigitChar (digitsBE 16 n) (digitsBE_lt 16 (by omega) n) 0 []
    simp only [List.append_nil] at this
    rw [this]
    simp only [parseDigitsGo]
    rw [show (digitsBE 16 n).foldl (fun a d => a * 16 + d) 0
          = fromDigits 16 (digitsBE 16 n) from rfl]
    rw [fromDigits_digitsBE 16 (by omega) n]
  · simp only [List.isEmpty_iff, List.append_eq_nil]
    intro h
    exact hne h.2

/-! ### Whitespace and character-class facts -/

theorem dropWhile_eq_self_of {α : Type} (p : α → Bool) (l : List α)
    (h : ∀ c ∈ l, p c = false) : l.dropWhile p = l := by
  cases l with
  | nil => rfl
  | cons a t =>
    have ha : p a = false := h a (List.mem_cons_self a t)
    simp [List.dropWhile_cons, ha]

theorem pyStripWs_eq_self (cs : List Char)
    (h : ∀ c ∈ cs, c.isWhitespace = false) : pyStripWs cs = cs := by
  unfold pyStripWs
  rw [dropWhile_eq_self_of _ _ h]
  rw [dropWhile_eq_self_of _ _ (fun c hc => h c (List.mem_reverse.mp hc))]
  exact List.reverse_reverse cs

/-- A character that is a decimal digit or a lowercase hex letter
(`a`–`f`); the alphabet of Python's `'x'` format output. -/
def isLowerHexChar (c : Char) : Bool :=
  decide ((48 ≤ c.toNat ∧ c.toNat ≤ 57) ∨ (97 ≤ c.toNat ∧ c.toNat ≤ 102))

theorem decDigitChar_not_ws : ∀ d : Nat, d < 10 →
    (decDigitChar d).isWhitespace = false := by decide

theorem hexDigitChar_not_ws : ∀ d : Nat, d < 16 →
    (hexDigitChar d).isWhitespace = false := by decide

theorem decDigitChar_ne_x : ∀ d : Nat, d < 10 → decDigitChar d ≠ 'x' := by
  decide

theorem hexDigitChar_lower : ∀ d : Nat, d < 16 →
    isLowerHexChar (hexDigitChar d) = true := by decide

theorem natToDecChars_not_ws (n : Nat) :
    ∀ c ∈ natToDecChars n, c.isWhitespace = false := by
  intro c hc
  unfold natToDecChars at hc
  rcases List.mem_map.mp hc with ⟨d, hd, rfl⟩
  exact decDigitChar_not_ws d (digitsBE_lt 10 (by omega) n d hd)

theorem startsWith0x_natToDecChars (n : Nat) :
    startsWith0x (natToDecChars n) = false := by
  unfold natToDecChars
  cases hl : digitsBE 10 n with
  | nil => rfl
  | cons d t =>
    cases t with
    | nil => rfl
    | cons d1 t1 =>
      have hd1 : d1 < 10 := by
        apply digitsBE_lt 10 (by omega) n
        rw [hl]
        exact List.mem_cons_of_mem d (List.mem_cons_self d1 t1)
      simp only [List.map_cons, startsWith0x]
      have : decDigitChar d1 ≠ 'x' := decDigitChar_ne_x d1 hd1
      simp [this]

theorem format064x_chars_lower (n : Nat) :
    ∀ c ∈ format064x n, isLowerHexChar c = true := by
  intro c hc
  unfold format064x zfillTo natToHexChars at hc
  rcases List.mem_append.mp hc with hc | hc
  · have : c = '0' := List.eq_of_mem_replicate hc
    subst this
    decide
  · rcases List.mem_map.mp hc with ⟨d, hd, rfl⟩
    exact hexDigitChar_lower d (digitsBE_lt 16 (by omega) n d hd)

theorem format064x_not_ws (n : Nat) :
    ∀ c ∈ format064x n, c.isWhitespace = false := by
  intro c hc
  unfold format064x zfillTo natToHexChars at hc
  rcases List.mem_append.mp hc with hc | hc
  · have : c = '0' := List.eq_of_mem_replicate hc
    subst this
    decide
  · rcases List.mem_map.mp hc with ⟨d, hd, rfl⟩
    exact hexDigitChar_not_ws d (digitsBE_lt 16 (by omega) n d hd)

theorem format064x_length (n : Nat) (h : n < 2 ^ 256) :
    (format064x n).length = 64 := by
  have h16 : n < 16 ^ 64 := by
    have he : (16 : Nat) ^ 64 = 2 ^ 256 := by norm_num
    omega
  have hlen : (natToHexChars n).length ≤ 64 := by
    unfold natToHexChars
    rw [List.length_map]
    exact digitsBE_length_le 16 (by omega) n 64 h16 (by omega)
  unfold format064x zfillTo
  rw [List.length_append, List.length_replicate]
  omega

/-- C4 — For every `n < 2^256`, converting the decimal string of `n` to
hex via `convert_token_id` and back to decimal yields the decimal string
of `n` exactly, and the hex form is `0x` followed by exactly 64
lowercase hex digits.  (Confirms the claim.) -/
theorem convert_token_id_roundtrip (n : Nat) (h : n < 2 ^ 256) :
    convert_token_id (convert_token_id (natToDecChars n) "hex") "decimal" =
      natToDecChars n ∧
    ∃ ds : List Char,
      convert_token_id (natToDecChars n) "hex" = '0' :: 'x' :: ds ∧
      ds.length = 64 ∧ ∀ c ∈ ds, isLowerHexChar c = true := by
  have hstrip1 : pyStripWs (natToDecChars n) = natToDecChars n :=
    pyStripWs_eq_self _ (natToDecChars_not_ws n)
  have hinner : convert_token_id (natToDecChars n) "hex" =
      '0' :: 'x' :: format064x n := by
    unfold convert_token_id
    rw [hstrip1]
    simp [startsWith0x_natToDecChars n, pyIntBase10_natToDecChars n]
  have hstrip2 : pyStripWs ('0' :: 'x' :: format064x n) =
      '0' :: 'x' :: format064x n := by
    apply pyStripWs_eq_self
    intro c hc
    simp only [List.mem_cons] at hc
    rcases hc with rfl | rfl | hc
    · decide
    · decide
    · exact format064x_not_ws n c hc
  have houter : convert_token_id ('0' :: 'x' :: format064x n) "decimal" =
      natToDecChars n := by
    unfold convert_token_id
    rw [hstrip2]
    have hfmt : ("decimal" : String) = "hex" ↔ False := by simp
    have hsw : startsWith0x ('0' :: 'x' :: format064x n) = true := by
      simp [startsWith0x]
    have hparse : pyIntBase16 ('0' :: 'x' :: format064x n) = some n := by
      show parseDigits hexCharVal 16 (format064x n) = some n
      exact parseDigits_hex_zfill 64 n
    simp [hsw, hparse]
  refine ⟨?_, format064x n, hinner, format064x_length n h,
    format064x_chars_lower n⟩
  rw [hinner, houter]

/-- Witness for C4 at `n = 123`. -/
theorem convert_token_id_roundtrip_witness :
    (123 : Nat) < 2 ^ 256 ∧
    (convert_token_id (convert_token_id (natToDecChars 123) "hex") "decimal" =
       natToDecChars 123 ∧
     ∃ ds : List Char,
       convert_token_id (natToDecChars 123) "hex" = '0' :: 'x' :: ds ∧
       ds.length = 64 ∧ ∀ c ∈ ds, isLowerHexChar c = true) :=
  ⟨by norm_num, convert_token_id_roundtrip 123 (by norm_num)⟩

/-- C2 — The claim demands that `convert_token_id` raise a
`ConversionError` on any input that is not a valid numeral and never
return the unmodified input.  The source instead catches the
`ValueError` and returns the input unchanged (token_utils.py lines
38-41 and 50-52), as this evaluation of the embedding shows: both a
non-numeric decimal input converted to hex and a malformed hex input
converted to decimal come back verbatim.  (Code bug: the spec flags
this very behavior as a defect in §9.) -/
theorem convert_token_id_silent_passthrough :
    convert_token_id "abc".toList "hex" = "abc".toList ∧
    convert_token_id "0xzz".toList "decimal" = "0xzz".toList := by decide

/-! ### parse_clob_token_ids (src/utils/token_utils.py) -/

/-- The raw dual-token field: either a Python string or an
already-materialized list of strings, the two runtime types accepted by
`parse_clob_token_ids`. -/
inductive TidInput where
  | str (cs : List Char)
  | lst (ts : List (List Char))

/-- Python truthiness test `if not tid_str` for the two accepted types. -/
def tidIsEmpty : TidInput → Bool
  | .str cs => cs.isEmpty
  | .lst ts => ts.isEmpty

def skipWs (cs : List Char) : List Char := cs.dropWhile Char.isWhitespace

/-- Body of a JSON string literal up to the closing quote.  Escape
sequences never occur in token-id payloads and are outside the model. -/
def parseJsonStringGo : List Char → List Char → Option (List Char × List Char)
  | [], _ => none
  | '"' :: rest, acc => some (acc.reverse, rest)
  | '\\' :: _, _ => none
  | c :: rest, acc => parseJsonStringGo rest (c :: acc)

def parseJsonString (cs : List Char) : Option (List Char × List Char) :=
  match cs with
  | '"' :: rest => parseJsonStringGo rest []
  | _ => none

/-- Comma-separated JSON string elements up to the closing bracket. -/
def parseJsonArrayGo : Nat → List Char → Option (List (List Char) × List Char)
  | 0, _ => none
  | fuel + 1, cs =>
    match parseJsonString (skipWs cs) with
    | none => none
    | some (s, rest) =>
      match skipWs rest with
      | ',' :: rest2 =>
        match parseJsonArrayGo fuel rest2 with
        | some (ss, r) => some (s :: ss, r)
        | none => none
      | ']' :: rest2 => some ([s], rest2)
      | _ => none

/-- `json.loads` restricted to the shape this field takes: a JSON array
of plain string literals.  Any other document is outside the model and
reported as a parse failure. -/
def jsonLoadsStringArray (cs : List Char) : Option (List (List Char)) :=
  match skipWs cs with
  | '[' :: rest =>
    match skipWs rest with
    | ']' :: tail => if skipWs tail = [] then some [] else none
    | _ =>
      match parseJsonArrayGo cs.length rest with
      | some (ss, tail) => if skipWs tail = [] then some ss else none
      | none => none
  | _ => none

/-- Token extraction of `parse_clob_token_ids` (token_utils.py lines
77-91): a list passes through; a string starting with `[` goes through
`json.loads` with a strip-and-split fallback; any other string is
strip-and-split directly. -/
def rawTokens : TidInput → List (List Char)
  | .lst ts => ts
  | .str cs =>
    if cs.head? = some '[' then
      match jsonLoadsStringArray cs with
      | some toks => toks
      | none =>
        ((pyStrip ['[', ']', '"'] cs).splitOn ',').map (pyStrip ['"', ' '])
    else ((pyStrip ['[', ']', '"'] cs).splitOn ',').map (pyStrip ['"', ' '])

/-- The per-token hex normalization of `parse_clob_token_ids`
(token_utils.py lines 103-108): a `0x`-prefixed token is replaced by
`str(int(tok, 16))`; here an invalid hex numeral surfaces the uncaught
`ValueError` as an `Except.error`. -/
def hexNormalize (tok : List Char) : Except String (List Char) :=
  if startsWith0x tok then
    match pyIntBase16 tok with
    | some k => .ok (natToDecChars k)
    | none => .error "invalid literal for int with base 16"
  else .ok tok

/-- Final stage of `parse_clob_token_ids` on exactly two raw tokens:
strip, then hex-normalize each (YES first, as in the source, so a YES
conversion failure propagates first). -/
def pairNormalize (t0 t1 : List Char) :
    Except String (List Char × List Char) :=
  match hexNormalize (pyStripWs t0), hexNormalize (pyStripWs t1) with
  | .ok y, .ok n2 => .ok (y, n2)
  | .error e, _ => .error e
  | .ok _, .error e => .error e

/-- Embedding of `parse_clob_token_ids` (token_utils.py lines 61-110). -/
def parse_clob_token_ids (tid : TidInput) :
    Except String (List Char × List Char) :=
  if tidIsEmpty tid then .error "Empty clobTokenIds"
  else
    match rawTokens tid with
    | [t0, t1] => pairNormalize t0 t1
    | _ => .error "Expected 2 tokens"

/-- C8 — The three observed encodings of the same pair parse alike: the
JSON-array string, the bare quoted comma-separated string, and the
already-materialized list all yield `("111", "222")`.  (Confirms the
claim.) -/
theorem parse_clob_token_ids_equivalence :
    parse_clob_token_ids (.str "[\"111\",\"222\"]".toList) =
      .ok ("111".toList, "222".toList) ∧
    parse_clob_token_ids (.str "\"111\",\"222\"".toList) =
      .ok ("111".toList, "222".toList) ∧
    parse_clob_token_ids (.lst ["111".toList, "222".toList]) =
      .ok ("111".toList, "222".toList) :=
  ⟨rfl, rfl, rfl⟩

theorem hexNormalize_no0x (tok y : List Char) (h : hexNormalize tok = .ok y) :
    startsWith0x y = false := by
  unfold hexNormalize at h
  by_cases hs : startsWith0x tok
  · rw [if_pos hs] at h
    cases hk : pyIntBase16 tok with
    | none => rw [hk] at h; exact absurd h (by simp)
    | some k =>
      rw [hk] at h
      have hy : natToDecChars k = y := by
        simpa using h
      rw [← hy]
      exact startsWith0x_natToDecChars k
  · rw [if_neg hs] at h
    have hy : tok = y := by simpa using h
    rw [← hy]
    exact Bool.not_eq_true _ ▸ (by simpa using hs)

/-- C10 — Whenever `parse_clob_token_ids` succeeds, neither returned
token starts with `0x`: every hex-prefixed entry was replaced by its
decimal representation.  (Confirms the claim.) -/
theorem parse_clob_token_ids_no_hex_output (tid : TidInput)
    (y n : List Char) (h : parse_clob_token_ids tid = .ok (y, n)) :
    startsWith0x y = false ∧ startsWith0x n = false := by
  unfold parse_clob_token_ids at h
  by_cases he : tidIsEmpty tid
  · rw [if_pos he] at h
    exact absurd h (by simp)
  · rw [if_neg he] at h
    rcases hr : rawTokens tid with _ | ⟨t0, _ | ⟨t1, _ | ⟨t2, ts⟩⟩⟩ <;>
      rw [hr] at h
    · exact absurd h (by simp)
    · exact absurd h (by simp)
    · have h2 : pairNormalize t0 t1 = .ok (y, n) := h
      unfold pairNormalize at h2
      cases hy : hexNormalize (pyStripWs t0) with
      | error e => rw [hy] at h2; exact absurd h2 (by simp)
      | ok y0 =>
        cases hn : hexNormalize (pyStripWs t1) with
        | error e => rw [hy, hn] at h2; exact absurd h2 (by simp)
        | ok n0 =>
          rw [hy, hn] at h2
          have hpair : y0 = y ∧ n0 = n := by
            simpa using h2
          rcases hpair with ⟨rfl, rfl⟩
          exact ⟨hexNormalize_no0x _ _ hy, hexNormalize_no0x _ _ hn⟩
    · exact absurd h (by simp)

/-- Witness for C10: a list input carrying one hex and one decimal
token parses successfully, and neither output token is hex-prefixed. -/
theorem parse_clob_token_ids_no_hex_output_witness :
    parse_clob_token_ids (.lst ["0x1f".toList, "2".toList]) =
      .ok ("31".toList, "2".toList) ∧
    (startsWith0x "31".toList = false ∧ startsWith0x "2".toList = false) :=
  ⟨rfl, parse_clob_token_ids_no_hex_output
    (.lst ["0x1f".toList, "2".toList]) "31".toList "2".toList rfl⟩

/-! ### fetch_trades (src/core/data_client.py, lines 15-48) -/

/-- One trade row: the server-chosen asset label, the integer timestamp
in seconds, and the remaining trade attributes carried opaquely. -/
structure TradeRec where
  asset : List Char
  timestamp : Int
  payload : List Char
deriving DecidableEq

/-- `data[-1]["timestamp"]` of a page; the default is irrelevant because
the source only evaluates it on non-empty pages. -/
def lastTimestamp (l : List TradeRec) : Int :=
  (l.getLastD ⟨[], 0, []⟩).timestamp

/-- The pagination loop of `fetch_trades` (data_client.py lines 30-46).
The external trade service is modelled by the list of its successive
page responses, consumed one per request; once it is exhausted further
requests answer with the empty page.  The first component collects the
appended pages (`dfs`), the second records the `endTime` parameter of
each issued request, in order. -/
def fetchTradesGo (limit : Nat) :
    Nat → List (List TradeRec) → Option Int →
      List (List TradeRec) × List (Option Int)
  | 0, _, _ => ([], [])
  | fuel + 1, server, endT =>
    if (server.headD []).isEmpty then ([], [endT])
    else if (server.headD []).length < limit then ([server.headD []], [endT])
    else
      (server.headD [] ::
         (fetchTradesGo limit fuel server.tail
           (some (lastTimestamp (server.headD []) - 1))).1,
       endT ::
         (fetchTradesGo limit fuel server.tail
           (some (lastTimestamp (server.headD []) - 1))).2)

/-- Observable outcome of `fetch_trades`: the concatenated kept rows
(`pd.concat(dfs)`) and the `endTime` bound of every request issued. -/
structure FetchResult where
  records : List TradeRec
  trace : List (Option Int)
deriving DecidableEq

/-- Embedding of `DataClient.fetch_trades` (data_client.py lines
15-48).  `token_id` and `start` are forwarded verbatim as request
parameters and do not influence the client-side control flow, which is
wholly captured by the successive page responses in `server`; the
`end_` parameter seeds `endTime` under Python truthiness (`if end:`). -/
def fetch_trades (token_id : List Char) (start end_ : Option Int)
    (limit maxPages : Nat) (server : List (List TradeRec)) : FetchResult :=
  let end0 : Option Int :=
    match end_ with
    | some v => if v = 0 then none else some v
    | none => none
  ⟨(fetchTradesGo limit maxPages server end0).1.flatten,
   (fetchTradesGo limit maxPages server end0).2⟩

/-- Modelled from the spec (§4.2 step 3): the three-way comparison —
exact, decimal-canonical, hex-canonical — that the spec says
`fetch_trades` applies to each record's asset field.  No such filter
exists in src/core/data_client.py; this definition only expresses what
the claim asserts. -/
def specAssetMatches (token_id asset : List Char) : Bool :=
  decide (asset = token_id ∨
    asset = convert_token_id token_id "decimal" ∨
    asset = convert_token_id token_id "hex")

theorem getD_zero_eq_headD {α : Type} (l : List α) (d : α) :
    l.getD 0 d = l.headD d := by
  cases l <;> rfl

theorem tail_getD {α : Type} (l : List α) (i : Nat) (d : α) :
    l.tail.getD i d = l.getD (i + 1) d := by
  cases l <;> rfl

theorem tail_drop_headD {α : Type} (l : List α) (i : Nat) (d : α) :
    (l.tail.drop i).headD d = (l.drop (i + 1)).headD d := by
  cases l with
  | nil => simp
  | cons a t => rfl

/-- Unfolding of the loop on a full page (neither break fires). -/
theorem fetchTradesGo_succ_full (limit fuel : Nat)
    (server : List (List TradeRec)) (endT : Option Int)
    (h1 : ¬((server.headD []).isEmpty = true))
    (h2 : ¬((server.headD []).length < limit)) :
    fetchTradesGo limit (fuel + 1) server endT =
      (server.headD [] ::
         (fetchTradesGo limit fuel server.tail
           (some (lastTimestamp (server.headD []) - 1))).1,
       endT ::
         (fetchTradesGo limit fuel server.tail
           (some (lastTimestamp (server.headD []) - 1))).2) := by
  simp only [fetchTradesGo]
  rw [if_neg h1, if_neg h2]

theorem fetchTradesGo_join_take (limit : Nat) :
    ∀ (fuel : Nat) (server : List (List TradeRec)) (endT : Option Int),
      (fetchTradesGo limit fuel server endT).1.flatten =
        (server.take (fetchTradesGo limit fuel server endT).2.length).flatten := by
  intro fuel
  induction fuel with
  | zero => intro server endT; simp [fetchTradesGo]
  | succ fuel ih =>
    intro server endT
    cases server with
    | nil => simp [fetchTradesGo]
    | cons p rest =>
      by_cases h1 : p.isEmpty
      · have hp : p = [] := by simpa [List.isEmpty_iff] using h1
        simp only [fetchTradesGo, List.headD_cons]
        rw [if_pos h1]
        simp [hp]
      · by_cases h2 : p.length < limit
        · simp only [fetchTradesGo, List.headD_cons]
          rw [if_neg h1, if_pos h2]
          simp
        · rw [fetchTradesGo_succ_full limit fuel (p :: rest) endT
            (by simpa using h1) (by simpa using h2)]
          simp only [List.headD_cons, List.tail_cons, List.flatten_cons,
            List.length_cons, List.take_succ_cons]
          rw [ih rest (some (lastTimestamp p - 1))]

theorem fetchTradesGo_trace_length (limit : Nat) (hlim : 1 ≤ limit) :
    ∀ (fuel : Nat) (server : List (List TradeRec)) (endT : Option Int),
      (∀ i, i < fuel → limit ≤ (server.getD i []).length) →
      (fetchTradesGo limit fuel server endT).2.length = fuel := by
  intro fuel
  induction fuel with
  | zero => intro server endT _; simp [fetchTradesGo]
  | succ fuel ih =>
    intro server endT hfull
    have h0 : limit ≤ (server.headD []).length := by
      rw [← getD_zero_eq_headD]
      exact hfull 0 (Nat.succ_pos fuel)
    have h1 : ¬((server.headD []).isEmpty = true) := by
      cases hd : server.headD [] with
      | nil => rw [hd] at h0; simp at h0; omega
      | cons a t => simp
    have h2 : ¬((server.headD []).length < limit) := by omega
    rw [fetchTradesGo_succ_full limit fuel server endT h1 h2]
    simp only [List.length_cons]
    rw [ih server.tail (some (lastTimestamp (server.headD []) - 1))]
    intro i hi
    rw [tail_getD]
    exact hfull (i + 1) (by omega)

theorem fetchTradesGo_trace_head (limit fuel : Nat)
    (server : List (List TradeRec)) (endT e : Option Int)
    (h : (fetchTradesGo limit fuel server endT).2.get? 0 = some e) :
    e = endT := by
  cases fuel with
  | zero => simp [fetchTradesGo] at h
  | succ fuel =>
    simp only [fetchTradesGo] at h
    by_cases h1 : (server.headD []).isEmpty
    · rw [if_pos h1] at h
      simpa using h.symm
    · rw [if_neg h1] at h
      by_cases h2 : (server.headD []).length < limit
      · rw [if_pos h2] at h
        simpa using h.symm
      · rw [if_neg h2] at h
        simpa using h.symm

theorem fetchTradesGo_cursor (limit : Nat) :
    ∀ (i fuel : Nat) (server : List (List TradeRec)) (endT e : Option Int),
      (fetchTradesGo limit fuel server endT).2.get? (i + 1) = some e →
      e = some (lastTimestamp ((server.drop i).headD []) - 1) := by
  intro i
  induction i with
  | zero =>
    intro fuel server endT e h
    cases fuel with
    | zero => simp [fetchTradesGo] at h
    | succ fuel =>
      simp only [fetchTradesGo] at h
      by_cases h1 : (server.headD []).isEmpty
      · rw [if_pos h1] at h; simp at h
      · rw [if_neg h1] at h
        by_cases h2 : (server.headD []).length < limit
        · rw [if_pos h2] at h; simp at h
        · rw [if_neg h2] at h
          simp only [List.get?_cons_succ] at h
          have := fetchTradesGo_trace_head limit fuel server.tail
            (some (lastTimestamp (server.headD []) - 1)) e h
          simpa using this
  | succ i ih =>
    intro fuel server endT e h
    cases fuel with
    | zero => simp [fetchTradesGo] at h
    | succ fuel =>
      simp only [fetchTradesGo] at h
      by_cases h1 : (server.headD []).isEmpty
      · rw [if_pos h1] at h; simp at h
      · rw [if_neg h1] at h
        by_cases h2 : (server.headD []).length < limit
        · rw [if_pos h2] at h; simp at h
        · rw [if_neg h2] at h
          simp only [List.get?_cons_succ] at h
          have := ih fuel server.tail
            (some (lastTimestamp (server.headD []) - 1)) e h
          rwa [tail_drop_headD] at this

/-- A concrete page of 10 rows: 6 belong to token `123` (3 labeled in
decimal, 3 labeled in canonical hex) and 4 belong to unrelated
identities — the scenario named by claim C1. -/
def c1Page : List TradeRec :=
  [⟨"123".toList, 10, []⟩,
   ⟨"999".toList, 9, []⟩,
   ⟨convert_token_id "123".toList "hex", 8, []⟩,
   ⟨"0xabc".toList, 7, []⟩,
   ⟨"123".toList, 6, []⟩,
   ⟨convert_token_id "123".toList "hex", 5, []⟩,
   ⟨"777".toList, 4, []⟩,
   ⟨"123".toList, 3, []⟩,
   ⟨convert_token_id "123".toList "hex", 2, []⟩,
   ⟨"5".toList, 1, []⟩]

/-- C1 counterexample — On a page of 10 rows of which exactly 6 match
the requested identity `123` under the spec's three-way comparison,
`fetch_trades` returns all 10 rows, not the 6 the claim asserts: no
record is ever discarded. -/
theorem fetch_trades_filter_claim_false :
    (c1Page.filter (fun r => specAssetMatches "123".toList r.asset)).length
      = 6 ∧
    (fetch_trades "123".toList none none 1000 50 [c1Page]).records.length
      = 10 ∧
    ¬((fetch_trades "123".toList none none 1000 50 [c1Page]).records.length
      = 6) := by
  refine ⟨by decide, by decide, by decide⟩

/-- C1 amended — `fetch_trades` applies no asset filter at all: its
result is exactly the concatenation of the pages it fetched, every row
kept unmodified, so the 10-row page of the claim's scenario contributes
all 10 rows (6 of which match the requested identity under the spec's
three-way comparison). -/
theorem fetch_trades_keeps_all_rows :
    (∀ (tok : List Char) (start end_ : Option Int) (limit maxPages : Nat)
       (server : List (List TradeRec)),
       (fetch_trades tok start end_ limit maxPages server).records =
         (server.take
           (fetch_trades tok start end_ limit maxPages server).trace.length
         ).flatten) ∧
    (c1Page.filter (fun r => specAssetMatches "123".toList r.asset)).length
      = 6 ∧
    (fetch_trades "123".toList none none 1000 50 [c1Page]).records =
      c1Page := by
  refine ⟨?_, by decide, by decide⟩
  intro tok start end_ limit maxPages server
  exact fetchTradesGo_join_take limit maxPages server _

/-- The never-shrinking witness record for the C5 safety-cap witness. -/
def c5Rec : TradeRec := ⟨"9".toList, 5, []⟩

/-- Server responding with pages of sizes 1000, 1000, 400 — the
scenario named by claim C5. -/
def c5Server : List (List TradeRec) :=
  [List.replicate 1000 ⟨"9".toList, 30, []⟩,
   List.replicate 1000 ⟨"9".toList, 20, []⟩,
   List.replicate 400 ⟨"9".toList, 10, []⟩]

set_option maxRecDepth 100000 in
/-- C5 — `fetch_trades` terminates: with pages that never shrink below
the limit it issues exactly `maxPages` requests (the safety cap, neither
earlier nor later); with page sizes `[1000, 1000, 400]` and limit 1000
it issues exactly 3 requests (the third page is short); and a first
empty page stops it after exactly 1 request.  (Confirms the claim.) -/
theorem fetch_trades_termination (tok : List Char) (limit maxPages : Nat)
    (server : List (List TradeRec)) (hlim : 1 ≤ limit)
    (hfull : ∀ i, i < maxPages → limit ≤ (server.getD i []).length) :
    (fetch_trades tok none none limit maxPages server).trace.length
      = maxPages ∧
    (fetch_trades "9".toList none none 1000 50 c5Server).trace.length = 3 ∧
    ∀ (rest : List (List TradeRec)) (m : Nat),
      (fetch_trades "9".toList none none limit (m + 1) ([] :: rest)
        ).trace.length = 1 := by
  refine ⟨?_, by decide, ?_⟩
  · exact fetchTradesGo_trace_length limit hlim maxPages server none hfull
  · intro rest m
    rfl

/-- Witness for C5 at `limit = 1`, `maxPages = 2` and a server of two
full single-row pages. -/
theorem fetch_trades_termination_witness :
    (1 ≤ 1) ∧
    (∀ i, i < 2 → 1 ≤ (([[c5Rec], [c5Rec]].getD i []).length)) ∧
    ((fetch_trades "9".toList none none 1 2 [[c5Rec], [c5Rec]]
       ).trace.length = 2 ∧
     (fetch_trades "9".toList none none 1000 50 c5Server).trace.length = 3 ∧
     ∀ (rest : List (List TradeRec)) (m : Nat),
       (fetch_trades "9".toList none none 1 (m + 1) ([] :: rest)
         ).trace.length = 1) :=
  ⟨by decide, by decide,
   fetch_trades_termination "9".toList 1 2 [[c5Rec], [c5Rec]]
     (by decide) (by decide)⟩

/-- The page named by the C6 counterexample: a full page (length =
limit = 2) whose matching record is first (timestamp 100) and whose raw
last record belongs to an unrelated identity (timestamp 50). -/
def c6Page : List TradeRec :=
  [⟨"123".toList, 100, []⟩, ⟨"999".toList, 50, []⟩]

/-- C6 counterexample — The claim says the next request's `endTime`
comes from the matched subset when one exists; here the matched subset
is the single record at timestamp 100, so the claim predicts
`endTime = 99`, but the code requests the next page with `endTime = 49`
(raw last record minus one). -/
theorem fetch_trades_cursor_claim_false :
    (c6Page.filter (fun r => specAssetMatches "123".toList r.asset)).length
      = 1 ∧
    lastTimestamp
      (c6Page.filter (fun r => specAssetMatches "123".toList r.asset)) - 1
      = 99 ∧
    (fetch_trades "123".toList none none 2 5 [c6Page, []]).trace.get? 1 =
      some (some 49) ∧
    ¬((fetch_trades "123".toList none none 2 5 [c6Page, []]).trace.get? 1 =
      some (some (lastTimestamp
        (c6Page.filter (fun r => specAssetMatches "123".toList r.asset))
        - 1))) := by
  refine ⟨by decide, by decide, by decide, by decide⟩

/-- C6 amended — After every page that does not terminate pagination,
the next request's upper time bound equals the raw (pre-filter) last
record's timestamp minus 1 second, unconditionally: the matched subset
plays no role because no filtering exists, and the cursor still always
moves backward in time. -/
theorem fetch_trades_cursor_raw_last (tok : List Char)
    (start end_ : Option Int) (limit maxPages : Nat)
    (server : List (List TradeRec)) (i : Nat) (e : Option Int)
    (h : (fetch_trades tok start end_ limit maxPages server).trace.get? (i + 1)
      = some e) :
    e = some (lastTimestamp ((server.drop i).headD []) - 1) :=
  fetchTradesGo_cursor limit i maxPages server _ e h

/-- Witness for C6 at the concrete two-page server: the second request
is issued with `endTime = 49 = 50 - 1`. -/
theorem fetch_trades_cursor_raw_last_witness :
    ((fetch_trades "123".toList none none 2 5 [c6Page, []]).trace.get? 1 =
      some (some 49)) ∧
    (some 49 : Option Int) =
      some (lastTimestamp (([c6Page, []].drop 0).headD []) - 1) :=
  ⟨by decide,
   fetch_trades_cursor_raw_last "123".toList none none 2 5 [c6Page, []] 0
     (some 49) (by decide)⟩

/-! ### Order-book client and the YES/NO collectors
(src/core/clob_client.py, src/collectors) -/

/-- A raised failure inside a fetch: an HTTP/transport error
(`requests.raise_for_status`), or the `KeyError` that
`pd.DataFrame(rows).set_index("timestamp")` raises when `rows` is empty
and the frame therefore has no `timestamp` column. -/
inductive FetchError where
  | transport (code : Nat)
  | keyError
deriving DecidableEq

/-- One level of a book ladder as served (`{price, size}`). -/
structure BookLevel where
  price : List Char
  size : List Char
deriving DecidableEq

/-- The book endpoint's successful JSON body
(`{timestamp, bids, asks}`). -/
structure BookSnapshot where
  timestamp : Int
  bids : List BookLevel
  asks : List BookLevel

/-- Outcome of one HTTP request at the `_get` boundary: a parsed body,
or a status-code failure that `raise_for_status` turns into a raise. -/
inductive HttpResult (α : Type) where
  | ok (a : α)
  | httpError (code : Nat)

/-- One exploded order-book row (clob_client.py lines 42-49). -/
structure BookRow where
  timestamp : Int
  side : String
  level : Nat
  price : List Char
  size : List Char
deriving DecidableEq

/-- `for level, entry in enumerate(ladder[:depth], 1)`. -/
def explodeLadder (t : Int) (side : String) (ladder : List BookLevel)
    (depth : Nat) : List BookRow :=
  (List.enumFrom 1 (ladder.take depth)).map
    (fun le => ⟨t, side, le.1, le.2.price, le.2.size⟩)

/-- The row set of one snapshot: bid ladder then ask ladder. -/
def orderBookRows (ob : BookSnapshot) (depth : Nat) : List BookRow :=
  explodeLadder ob.timestamp "bid" ob.bids depth ++
    explodeLadder ob.timestamp "ask" ob.asks depth

/-- Embedding of `CLOBClient.fetch_order_book` (clob_client.py lines
31-51): an HTTP failure propagates as a raised transport error, and —
unlike every other fetcher in the repo — the empty-rows case is not
guarded, so `pd.DataFrame(rows).set_index("timestamp")` on line 51
raises `KeyError` when both ladders are empty (the empty frame has no
`timestamp` column); only a non-empty row set is returned. -/
def fetch_order_book (resp : HttpResult BookSnapshot) (depth : Nat) :
    Except FetchError (List BookRow) :=
  match resp with
  | .httpError c => .error (.transport c)
  | .ok ob =>
    if (orderBookRows ob depth).isEmpty then .error .keyError
    else .ok (orderBookRows ob depth)

/-- `df["outcome"] = lab`, skipped on an empty frame as in the source. -/
def tagRows {α : Type} (df : List α) (lab : String) : List (α × String) :=
  if df.isEmpty then [] else df.map (fun r => (r, lab))

/-- The strip-and-split token parse shared by the trade and order-book
collectors (the "CRITICAL FIX" path of both files). -/
def collectorTokens (tid_str : List Char) : List (List Char) :=
  ((pyStrip ['[', ']', '"'] tid_str).splitOn ',').map (pyStrip ['"', ' '])

/-- Embedding of `OrderBookCollector.collect_market_orderbook`
(orderbook_collector.py lines 16-67).  The market is represented by its
`clobTokenIds` string; the injected CLOB client is the `server`
function from token to endpoint response.  Each side's fetch runs in
its own try/except: a raise leaves that side's frame empty. -/
def collect_market_orderbook (tid_str : List Char) (depth : Nat)
    (server : List Char → HttpResult BookSnapshot) :
    List (BookRow × String) × List (BookRow × String) :=
  if tid_str.isEmpty then ([], [])
  else
    match collectorTokens tid_str with
    | [tokYes, tokNo] =>
      (tagRows (match fetch_order_book (server tokYes) depth with
                | .ok t => t
                | .error _ => []) "YES",
       tagRows (match fetch_order_book (server tokNo) depth with
                | .ok t => t
                | .error _ => []) "NO")
    | _ => ([], [])

/-- Embedding of `TradeCollector.collect_market_trades`
(trade_collector.py lines 15-66), with the injected `DataClient` fetch
abstracted as a function from token to result. -/
def collect_market_trades (tid_str : List Char)
    (fetchTr : List Char → Except FetchError (List TradeRec)) :
    List (TradeRec × String) × List (TradeRec × String) :=
  if tid_str.isEmpty then ([], [])
  else
    match collectorTokens tid_str with
    | [tokYes, tokNo] =>
      (tagRows (match fetchTr tokYes with
                | .ok t => t
                | .error _ => []) "YES",
       tagRows (match fetchTr tokNo with
                | .ok t => t
                | .error _ => []) "NO")
    | _ => ([], [])

/-- C3 — The claim requires the well-formed empty book to yield an
empty result distinguishable from a thrown error.  The code instead
raises on it: with `rows == []`, `pd.DataFrame(rows)` has no
`timestamp` column and `.set_index("timestamp")` (clob_client.py line
51) raises `KeyError`, which the collector's blanket `except` then
swallows into an empty table exactly as it swallows a transport error.
So at the client boundary both the empty book and HTTP 500 raise, and
at the collector boundary both produce the same two empty tables: the
claimed distinguishability holds at no boundary.  This is a slip, not
a design choice: `fetch_price_history` guards the empty history and
`fetch_trades` guards the empty page list, and spec §7 makes the
empty-result representation mandatory. -/
theorem fetch_order_book_empty_book_raises (ts : Int) :
    fetch_order_book (.ok ⟨ts, [], []⟩) 20 = .error .keyError ∧
    fetch_order_book (.httpError 500) 20 = .error (.transport 500) ∧
    collect_market_orderbook "\"1\",\"2\"".toList 20
      (fun _ => .ok ⟨ts, [], []⟩) = ([], []) ∧
    collect_market_orderbook "\"1\",\"2\"".toList 20
      (fun _ => .httpError 500) = ([], []) :=
  ⟨rfl, rfl, rfl, rfl⟩

theorem collectorTokens_pair_ne_nil (tid_str tokYes tokNo : List Char)
    (hp : collectorTokens tid_str = [tokYes, tokNo]) :
    tid_str.isEmpty = false := by
  cases tid_str with
  | nil =>
    have h0 : collectorTokens ([] : List Char) = [[]] := rfl
    rw [h0] at hp
    simp at hp
  | cons c cs => rfl

/-- On any market whose token field parses to exactly two tokens, the
trade collector is the pair of the two independently fetched,
error-guarded, tagged sides. -/
theorem collect_market_trades_pair (tid_str tokYes tokNo : List Char)
    (hp : collectorTokens tid_str = [tokYes, tokNo])
    (fetchTr : List Char → Except FetchError (List TradeRec)) :
    collect_market_trades tid_str fetchTr =
      (tagRows (match fetchTr tokYes with
                | .ok t => t
                | .error _ => []) "YES",
       tagRows (match fetchTr tokNo with
                | .ok t => t
                | .error _ => []) "NO") := by
  unfold collect_market_trades
  rw [if_neg (by simp [collectorTokens_pair_ne_nil tid_str tokYes tokNo hp]),
    hp]

/-- Same decomposition for the order-book collector. -/
theorem collect_market_orderbook_pair (tid_str tokYes tokNo : List Char)
    (hp : collectorTokens tid_str = [tokYes, tokNo]) (depth : Nat)
    (server : List Char → HttpResult BookSnapshot) :
    collect_market_orderbook tid_str depth server =
      (tagRows (match fetch_order_book (server tokYes) depth with
                | .ok t => t
                | .error _ => []) "YES",
       tagRows (match fetch_order_book (server tokNo) depth with
                | .ok t => t
                | .error _ => []) "NO") := by
  unfold collect_market_orderbook
  rw [if_neg (by simp [collectorTokens_pair_ne_nil tid_str tokYes tokNo hp]),
    hp]

/-- C9 — For every market (any token field parsing to two tokens), a
raised failure on the YES-side fetch never aborts the NO side: in both
collectors the YES side comes back empty, the NO-side fetch is still
attempted and its rows are still returned, and the NO-side output is
identical to that of any run — a failure-free one in particular —
whose fetch agrees on the NO token.  (Confirms the claim.) -/
theorem collectors_isolate_side_failures (tid_str tokYes tokNo : List Char)
    (hp : collectorTokens tid_str = [tokYes, tokNo])
    (e : FetchError) (code : Nat) (depth : Nat)
    (fetchTr : List Char → Except FetchError (List TradeRec))
    (hYes : fetchTr tokYes = .error e)
    (bookServer : List Char → HttpResult BookSnapshot)
    (hbYes : bookServer tokYes = .httpError code) :
    collect_market_trades tid_str fetchTr =
      ([], tagRows (match fetchTr tokNo with
                    | .ok t => t
                    | .error _ => []) "NO") ∧
    (∀ g : List Char → Except FetchError (List TradeRec),
       g tokNo = fetchTr tokNo →
       (collect_market_trades tid_str fetchTr).2 =
         (collect_market_trades tid_str g).2) ∧
    collect_market_orderbook tid_str depth bookServer =
      ([], tagRows (match fetch_order_book (bookServer tokNo) depth with
                    | .ok t => t
                    | .error _ => []) "NO") := by
  refine ⟨?_, ?_, ?_⟩
  · rw [collect_market_trades_pair tid_str tokYes tokNo hp fetchTr, hYes]
    rfl
  · intro g hg
    rw [collect_market_trades_pair tid_str tokYes tokNo hp fetchTr,
      collect_market_trades_pair tid_str tokYes tokNo hp g, hg]
  · rw [collect_market_orderbook_pair tid_str tokYes tokNo hp depth
      bookServer, hbYes]
    rfl

/-- The concrete failing-YES servers for the C9 witness. -/
def c9FetchTr : List Char → Except FetchError (List TradeRec) :=
  fun t => if t = "1".toList then .error (.transport 500)
           else .ok [⟨"2".toList, 7, []⟩]

def c9BookServer : List Char → HttpResult BookSnapshot :=
  fun t => if t = "1".toList then .httpError 500
           else .ok ⟨5, [⟨"3".toList, "4".toList⟩], []⟩

/-- Witness for C9 at the market `"1","2"` with the YES side failing. -/
theorem collectors_isolate_side_failures_witness :
    (collectorTokens "\"1\",\"2\"".toList = ["1".toList, "2".toList]) ∧
    (c9FetchTr "1".toList = .error (.transport 500)) ∧
    (c9BookServer "1".toList = .httpError 500) ∧
    (collect_market_trades "\"1\",\"2\"".toList c9FetchTr =
       ([], tagRows (match c9FetchTr "2".toList with
                     | .ok t => t
                     | .error _ => []) "NO") ∧
     (∀ g : List Char → Except FetchError (List TradeRec),
        g "2".toList = c9FetchTr "2".toList →
        (collect_market_trades "\"1\",\"2\"".toList c9FetchTr).2 =
          (collect_market_trades "\"1\",\"2\"".toList g).2) ∧
     collect_market_orderbook "\"1\",\"2\"".toList 20 c9BookServer =
       ([], tagRows (match fetch_order_book (c9BookServer "2".toList) 20 with
                     | .ok t => t
                     | .error _ => []) "NO")) :=
  ⟨rfl, rfl, rfl,
   collectors_isolate_side_failures "\"1\",\"2\"".toList
     "1".toList "2".toList rfl (.transport 500) 500 20
     c9FetchTr rfl c9BookServer rfl⟩

/-! ### Price collector (src/collectors/price_collector.py) -/

/-- `df_no` lookup of a price at a timestamp; price histories are keyed
by timestamp (one observation per instant), which is the regime pandas'
index join is used in here. -/
def lookupTs (xs : List (Int × ℚ)) (t : Int) : Option ℚ :=
  (xs.find? (fun r => decide (r.1 = t))).map (fun r => r.2)

/-- The timestamp index of the joined frame: union of both indexes,
deduplicated and sorted ascending (`join(how="outer")` followed by
`sort_index()`). -/
def tsKeys (xs ys : List (Int × ℚ)) : List Int :=
  (((xs.map Prod.fst) ++ (ys.map Prod.fst)).dedup).insertionSort (· ≤ ·)

/-- The pandas outer index join of the two per-outcome histories: one
row per timestamp of either side, missing sides kept as `none`. -/
def outerJoinTs (xs ys : List (Int × ℚ)) :
    List (Int × Option ℚ × Option ℚ) :=
  (tsKeys xs ys).map (fun t => (t, lookupTs xs t, lookupTs ys t))

/-- `sort_index()` on a single-column frame. -/
def sortByTs (xs : List (Int × ℚ)) : List (Int × ℚ) :=
  xs.insertionSort (fun a b => a.1 ≤ b.1)

/-- Result of `collect_market_prices`, mirroring the source's column
labeling: `None`, both columns, or a single labeled column. -/
inductive PricesResult where
  | noData
  | bothCols (rows : List (Int × Option ℚ × Option ℚ))
  | yesOnly (rows : List (Int × ℚ))
  | noOnly (rows : List (Int × ℚ))
deriving DecidableEq

/-- The three-branch token parse of `collect_market_prices`
(price_collector.py lines 32-43): a materialized list, a `[`-prefixed
JSON string, or a strip-and-split string.  The source indexes
`tokens[0]`/`tokens[1]` without a length check; a missing second entry
raises and is caught, which the `none` result models, and extra
entries are ignored. -/
def priceCollectorTokens (tid : TidInput) : Option (List Char × List Char) :=
  match tid with
  | .lst ts =>
    match ts with
    | t0 :: t1 :: _ => some (t0, t1)
    | _ => none
  | .str cs =>
    if cs.head? = some '[' then
      match jsonLoadsStringArray cs with
      | some (t0 :: t1 :: _) => some (t0, t1)
      | _ => none
    else
      match collectorTokens cs with
      | t0 :: t1 :: _ => some (t0, t1)
      | _ => none

/-- Embedding of `PriceCollector.collect_market_prices`
(price_collector.py lines 15-83).  Each side's fetch runs in its own
try/except, a raise leaving that side empty; the empty/one-sided/both
case split and labeling follow lines 69-83 of the source. -/
def collect_market_prices (tid : TidInput)
    (fetch : List Char → Except FetchError (List (Int × ℚ))) :
    PricesResult :=
  if tidIsEmpty tid then .noData
  else
    match priceCollectorTokens tid with
    | none => .noData
    | some (tokYes, tokNo) =>
      let dfYes := match fetch tokYes with | .ok t => t | .error _ => []
      let dfNo := match fetch tokNo with | .ok t => t | .error _ => []
      if dfYes.isEmpty ∧ dfNo.isEmpty then .noData
      else if ¬dfYes.isEmpty ∧ ¬dfNo.isEmpty then
        .bothCols (outerJoinTs dfYes dfNo)
      else if ¬dfYes.isEmpty then .yesOnly (sortByTs dfYes)
      else .noOnly (sortByTs dfNo)

theorem mem_tsKeys (xs ys : List (Int × ℚ)) (a : Int) :
    a ∈ tsKeys xs ys ↔ (a ∈ xs.map Prod.fst ∨ a ∈ ys.map Prod.fst) := by
  unfold tsKeys
  rw [(List.perm_insertionSort _ _).mem_iff, List.mem_dedup,
    List.mem_append]

/-- C7 — `collect_market_prices` performs an outer join on timestamp:
every timestamp of either side appears in the joined table with the
other side kept as `none` when missing and no row is invented; when
both outcomes return data the columns are YES then NO (`bothCols`),
when only one side returns data the result carries only that labeled
column, and when both are empty the result is absent.  The concrete
conjuncts replay the spec's worked example. -/
theorem collect_market_prices_outer_join (xs ys : List (Int × ℚ)) (t : Int)
    (ht : t ∈ xs.map Prod.fst ∨ t ∈ ys.map Prod.fst) :
    ((t, lookupTs xs t, lookupTs ys t) ∈ outerJoinTs xs ys) ∧
    (∀ r ∈ outerJoinTs xs ys,
       r = (r.1, lookupTs xs r.1, lookupTs ys r.1) ∧
       (r.1 ∈ xs.map Prod.fst ∨ r.1 ∈ ys.map Prod.fst)) ∧
    collect_market_prices (.str "[\"T1\",\"T2\"]".toList)
      (fun tk => if tk = "T1".toList then .ok [(1, 3/10), (2, 2/5)]
                 else .ok [(1, 7/10)]) =
      .bothCols [(1, some (3/10), some (7/10)), (2, some (2/5), none)] ∧
    collect_market_prices (.str "[\"T1\",\"T2\"]".toList)
      (fun tk => if tk = "T1".toList then .ok [(1, 3/10), (2, 2/5)]
                 else .ok []) =
      .yesOnly [(1, 3/10), (2, 2/5)] ∧
    collect_market_prices (.str "[\"T1\",\"T2\"]".toList)
      (fun tk => if tk = "T1".toList then .ok [] else .ok [(1, 7/10)]) =
      .noOnly [(1, 7/10)] ∧
    collect_market_prices (.str "[\"T1\",\"T2\"]".toList)
      (fun _ => .ok []) = .noData := by
  refine ⟨?_, ?_, rfl, rfl, rfl, rfl⟩
  · unfold outerJoinTs
    exact List.mem_map_of_mem _ ((mem_tsKeys xs ys t).mpr ht)
  · intro r hr
    unfold outerJoinTs at hr
    rcases List.mem_map.mp hr with ⟨a, ha, rfl⟩
    exact ⟨rfl, (mem_tsKeys xs ys a).mp ha⟩

/-- Witness for C7 at the spec's worked example: timestamp 2 occurs
only on the YES side and is kept with a missing NO value. -/
theorem collect_market_prices_outer_join_witness :
    (((2 : Int), lookupTs [(1, (3 : ℚ)/10), (2, 2/5)] 2,
        lookupTs [(1, (7 : ℚ)/10)] 2) ∈
      outerJoinTs [(1, (3 : ℚ)/10), (2, 2/5)] [(1, (7 : ℚ)/10)]) ∧
    collect_market_prices (.str "[\"T1\",\"T2\"]".toList)
      (fun tk => if tk = "T1".toList then .ok [(1, 3/10), (2, 2/5)]
                 else .ok [(1, 7/10)]) =
      .bothCols [(1, some (3/10), some (7/10)), (2, some (2/5), none)] := by
  have h := collect_market_prices_outer_join
    [(1, (3 : ℚ)/10), (2, 2/5)] [(1, (7 : ℚ)/10)] 2 (by decide)
  exact ⟨h.1, h.2.2.1⟩
